import Mathlib

/-!
Shallow embedding of the salice-hinge-boring-calculator core
(`src/models.py` and `src/hinges.py`).

Conventions of the embedding:
* Python floats carrying millimetre values are modelled as `ℚ`; the
  catalogue literals (15.0, 1.3, 20.5, ...) are the exact decimals, written
  `mkRat n 10` so that they evaluate under kernel reduction.
* Python `dict[int, ...]` tables are modelled as association lists with
  `.get` modelled by `List.lookup`; a missing entry is `none`.
* Python `None` for an optional value is `Option.none`.
* A Python function that can raise is modelled with an `Option` result:
  `none` is the raised exception.
* Warning strings are modelled as a structured `Warning` datatype carrying
  exactly the data interpolated into the Python message; rendering a
  `Warning` to text is presentation, outside the modelled core.
* The in-place mutation of the `DoorSpec` argument performed by
  `calculate_boring` is modelled by returning the updated `DoorSpec`
  alongside the `BoringResult`.
-/

namespace Salice

/-- Model of Python `int(round(x))`: round half to even (Python 3 `round`
semantics). The fractional part `x - floor x = (x.num - floor x * x.den) /
x.den` is compared against one half on the integer numerators, which keeps
the definition kernel-computable. -/
def pyRound (x : ℚ) : ℤ :=
  let f : ℤ := x.floor
  let r2 : ℤ := 2 * (x.num - f * (x.den : ℤ))
  if r2 < (x.den : ℤ) then f
  else if (x.den : ℤ) < r2 then f + 1
  else if f % 2 = 0 then f else f + 1

/-- Embedding of `BoringTables` (src/models.py): A and L lookup tables for a
hinge series, keyed by integer thickness then integer boring distance, plus
the `c_offset` constant of the formula `C = c_offset + K + A`. -/
structure BoringTables where
  a_table : List (ℤ × List (ℤ × ℚ))
  l_table : List (ℤ × List (ℤ × ℚ))
  c_offset : ℚ
deriving DecidableEq

/-- Embedding of `BoringTables.get_a`: `self.a_table.get(thickness_mm, {}).get(k_mm)`. -/
def get_a (t : BoringTables) (thickness_mm k_mm : ℤ) : Option ℚ :=
  ((t.a_table.lookup thickness_mm).getD []).lookup k_mm

/-- Embedding of `BoringTables.get_l`: `self.l_table.get(thickness_mm, {}).get(k_mm)`. -/
def get_l (t : BoringTables) (thickness_mm k_mm : ℤ) : Option ℚ :=
  ((t.l_table.lookup thickness_mm).getD []).lookup k_mm

/-- Embedding of `BoringTables.get_c`: `None` when A is absent, else
`c_offset + k_mm + a`. -/
def get_c (t : BoringTables) (thickness_mm k_mm : ℤ) : Option ℚ :=
  match get_a t thickness_mm k_mm with
  | none => none
  | some a => some (t.c_offset + (k_mm : ℚ) + a)

/-- Embedding of `DoorSpec` (src/models.py). -/
structure DoorSpec where
  thickness_mm : ℚ
  height_mm : Option ℚ := none
  weight_kg : Option ℚ := none
  desired_k_mm : Option ℚ := none
deriving DecidableEq

/-- Embedding of `HingeSeriesBase` (src/hinges.py): the per-series constants,
tables and optional height-to-count curve. The Python class is a dataclass
with no abstract method, so arbitrary field combinations are constructible. -/
structure HingeSeriesBase where
  code : String
  display_name : String
  opening_angle_deg : ℚ
  min_door_thickness_mm : ℚ
  max_door_thickness_mm : Option ℚ
  min_k_mm : ℚ
  max_k_mm : ℚ
  cup_diameter_mm : ℚ
  cup_depth_mm : ℚ
  tables : BoringTables
  hinge_count_by_height : Option (List (ℚ × ℤ)) := none
deriving DecidableEq

/-- Embedding of `HingeSeriesBase.supports_thickness`:
`thickness_mm >= min` and (`max` is None or `thickness_mm <= max`). -/
def supports_thickness (s : HingeSeriesBase) (thickness_mm : ℚ) : Bool :=
  decide (s.min_door_thickness_mm ≤ thickness_mm) &&
    (match s.max_door_thickness_mm with
     | none => true
     | some m => decide (thickness_mm ≤ m))

/-- Embedding of `HingeSeriesBase.clamp_k`: `max(min_k, min(max_k, k))`. -/
def clamp_k (s : HingeSeriesBase) (k_mm : ℚ) : ℚ :=
  max s.min_k_mm (min s.max_k_mm k_mm)

/-- Embedding of `HingeSeriesBase.default_k`: the series minimum K. -/
def default_k (s : HingeSeriesBase) : ℚ :=
  s.min_k_mm

/-- Embedding of the scan loop in `recommend_hinge_count`: first
`(max_height, count)` entry with `door_height_mm <= max_height`. -/
def find_count : List (ℚ × ℤ) → ℚ → Option ℤ
  | [], _ => none
  | (max_height, count) :: rest, h =>
    if h ≤ max_height then some count else find_count rest h

/-- Embedding of `HingeSeriesBase.recommend_hinge_count`: `None` when no
curve is configured (Python falsiness covers both `None` and `[]`),
otherwise the first bracket admitting the height, with the last bracket's
count as ceiling. The weight argument is accepted and unused, as in the
source. -/
def recommend_hinge_count (s : HingeSeriesBase) (door_height_mm : ℚ)
    (door_weight_kg : Option ℚ) : Option ℤ :=
  match s.hinge_count_by_height with
  | none => none
  | some [] => none
  | some (hd :: tl) =>
    match find_count (hd :: tl) door_height_mm with
    | some c => some c
    | none => some ((hd :: tl).getLast (List.cons_ne_nil hd tl)).2

/-- Structured model of the warning strings appended by `calculate_boring`,
carrying exactly the data the Python code interpolates into each message. -/
inductive Warning where
  | thicknessOutOfRange (thickness_mm : ℚ) (display_name : String)
  | defaultK (k_mm : ℚ)
  | clampedK (desired_k_mm min_k_mm max_k_mm clamped_k_mm : ℚ)
  | missingEntry (thickness_int k_int : ℤ)
deriving DecidableEq

/-- Embedding of `BoringResult` (src/models.py). -/
structure BoringResult where
  series_code : String
  thickness_mm : ℚ
  height_mm : ℚ
  k_mm : ℚ
  a_mm : Option ℚ
  l_mm : Option ℚ
  c_mm : Option ℚ
  recommended_hinge_count : Option ℤ
  warnings : List Warning
deriving DecidableEq

/-- Thickness-validation step of `calculate_boring`: a warning when the
series does not support the door thickness. -/
def thickness_warnings (series : HingeSeriesBase) (door : DoorSpec) : List Warning :=
  if supports_thickness series door.thickness_mm then []
  else [Warning.thicknessOutOfRange door.thickness_mm series.display_name]

/-- K-resolution step of `calculate_boring`: the series default (with an
informational warning) when no K is desired, else the clamped K (with a
warning when clamping changed it). -/
def resolve_k (series : HingeSeriesBase) (door : DoorSpec) : ℚ × List Warning :=
  match door.desired_k_mm with
  | none => (default_k series, [Warning.defaultK (default_k series)])
  | some dk =>
    let k := clamp_k series dk
    if k = dk then (k, [])
    else (k, [Warning.clampedK dk series.min_k_mm series.max_k_mm k])

/-- Embedding of `min(h for (h, _) in curve)` over a non-empty curve. -/
def min_threshold (hd : ℚ × ℤ) (tl : List (ℚ × ℤ)) : ℚ :=
  tl.foldl (fun m p => min m p.1) hd.1

/-- Embedding of `calculate_boring` (src/models.py). `none` models the
exception raised by `min(h for (h, _) in series.hinge_count_by_height)`
when the door height is unset and the curve is `None` (TypeError) or empty
(ValueError). The second component of the result is the door spec after the
in-place height back-fill. -/
def calculate_boring (series : HingeSeriesBase) (door : DoorSpec) :
    Option (BoringResult × DoorSpec) :=
  let w1 := thickness_warnings series door
  let kw := resolve_k series door
  let k_mm := kw.1
  let thickness_int := pyRound door.thickness_mm
  let k_int := pyRound k_mm
  let a_mm := get_a series.tables thickness_int k_int
  let l_mm := get_l series.tables thickness_int k_int
  let c_mm := get_c series.tables thickness_int k_int
  let w3 := (w1 ++ kw.2) ++
    (if a_mm.isNone || l_mm.isNone then [Warning.missingEntry thickness_int k_int] else [])
  match door.height_mm with
  | some h =>
    some ({ series_code := series.code, thickness_mm := door.thickness_mm,
            height_mm := h, k_mm := k_mm, a_mm := a_mm, l_mm := l_mm, c_mm := c_mm,
            recommended_hinge_count := recommend_hinge_count series h door.weight_kg,
            warnings := w3 }, door)
  | none =>
    match series.hinge_count_by_height with
    | none => none
    | some [] => none
    | some (hd :: tl) =>
      let h := min_threshold hd tl
      some ({ series_code := series.code, thickness_mm := door.thickness_mm,
              height_mm := h, k_mm := k_mm, a_mm := a_mm, l_mm := l_mm, c_mm := c_mm,
              recommended_hinge_count := recommend_hinge_count series h door.weight_kg,
              warnings := w3 }, { door with height_mm := some h })

/-- Default A table of `SaliceSilentia100Series.__init__` (src/hinges.py). -/
def a_table_100 : List (ℤ × List (ℤ × ℚ)) :=
  [ (15, [(3, 1), (4, mkRat 9 10), (5, mkRat 9 10), (6, mkRat 9 10)]),
    (16, [(3, 1), (4, 1), (5, 1), (6, 1)]),
    (17, [(3, mkRat 12 10), (4, mkRat 12 10), (5, mkRat 11 10), (6, mkRat 11 10)]),
    (18, [(3, mkRat 14 10), (4, mkRat 13 10), (5, mkRat 12 10), (6, mkRat 12 10)]),
    (19, [(3, mkRat 16 10), (4, mkRat 15 10), (5, mkRat 15 10), (6, mkRat 14 10)]),
    (20, [(3, mkRat 19 10), (4, mkRat 18 10), (5, mkRat 18 10), (6, mkRat 17 10)]) ]

/-- Default L table of `SaliceSilentia100Series.__init__` (src/hinges.py). -/
def l_table_100 : List (ℤ × List (ℤ × ℚ)) :=
  [ (15, [(3, 0), (4, mkRat 4 10), (5, 1), (6, mkRat 16 10)]),
    (16, [(3, 0), (4, mkRat 6 10), (5, 1), (6, mkRat 18 10)]),
    (17, [(3, 0), (4, mkRat 7 10), (5, mkRat 12 10), (6, 2)]),
    (18, [(3, 0), (4, mkRat 9 10), (5, mkRat 18 10), (6, mkRat 21 10)]),
    (19, [(3, mkRat 1 10), (4, mkRat 11 10), (5, 2), (6, mkRat 23 10)]),
    (20, [(3, mkRat 3 10), (4, mkRat 12 10), (5, 2), (6, mkRat 25 10)]) ]

/-- Default `BoringTables` of the 100 series, `c_offset = 20.5`. -/
def tables_100 : BoringTables :=
  { a_table := a_table_100, l_table := l_table_100, c_offset := mkRat 205 10 }

/-- Default A table of `SaliceSilentia200_94Series.__init__` (src/hinges.py). -/
def a_table_200_94 : List (ℤ × List (ℤ × ℚ)) :=
  [ (19, [(3, mkRat 1 10), (4, mkRat 1 10), (5, mkRat 1 10), (6, mkRat 1 10), (7, mkRat 1 10), (8, mkRat 1 10), (9, mkRat 1 10)]),
    (20, [(3, mkRat 2 10), (4, mkRat 2 10), (5, mkRat 2 10), (6, mkRat 2 10), (7, mkRat 2 10), (8, mkRat 2 10), (9, mkRat 2 10)]),
    (21, [(3, mkRat 3 10), (4, mkRat 3 10), (5, mkRat 3 10), (6, mkRat 3 10), (7, mkRat 3 10), (8, mkRat 3 10), (9, mkRat 3 10)]),
    (22, [(3, mkRat 4 10), (4, mkRat 4 10), (5, mkRat 4 10), (6, mkRat 4 10), (7, mkRat 4 10), (8, mkRat 4 10), (9, mkRat 4 10)]),
    (23, [(3, mkRat 5 10), (4, mkRat 5 10), (5, mkRat 5 10), (6, mkRat 5 10), (7, mkRat 5 10), (8, mkRat 5 10), (9, mkRat 5 10)]),
    (24, [(3, mkRat 7 10), (4, mkRat 7 10), (5, mkRat 7 10), (6, mkRat 6 10), (7, mkRat 6 10), (8, mkRat 6 10), (9, mkRat 6 10)]),
    (25, [(3, mkRat 8 10), (4, mkRat 8 10), (5, mkRat 8 10), (6, mkRat 8 10), (7, mkRat 8 10), (8, mkRat 8 10), (9, mkRat 8 10)]),
    (26, [(3, 1), (4, 1), (5, 1), (6, 1), (7, 1), (8, mkRat 9 10), (9, mkRat 9 10)]),
    (27, [(3, mkRat 16 10), (4, mkRat 12 10), (5, mkRat 12 10), (6, mkRat 12 10), (7, mkRat 11 10), (8, mkRat 11 10), (9, mkRat 11 10)]),
    (28, [(3, mkRat 26 10), (4, mkRat 19 10), (5, mkRat 14 10), (6, mkRat 14 10), (7, mkRat 13 10), (8, mkRat 13 10), (9, mkRat 13 10)]),
    (29, [(3, mkRat 35 10), (4, mkRat 28 10), (5, mkRat 22 10), (6, mkRat 17 10), (7, mkRat 16 10), (8, mkRat 16 10), (9, mkRat 15 10)]),
    (30, [(3, mkRat 45 10), (4, mkRat 38 10), (5, mkRat 31 10), (6, mkRat 26 10), (7, mkRat 21 10), (8, mkRat 18 10), (9, mkRat 18 10)]),
    (31, [(3, mkRat 54 10), (4, mkRat 47 10), (5, mkRat 41 10), (6, mkRat 35 10), (7, 3), (8, mkRat 25 10), (9, mkRat 21 10)]),
    (32, [(3, mkRat 64 10), (4, mkRat 57 10), (5, 5), (6, mkRat 44 10), (7, mkRat 38 10), (8, mkRat 33 10), (9, mkRat 29 10)]),
    (33, [(3, mkRat 74 10), (4, mkRat 66 10), (5, mkRat 59 10), (6, mkRat 53 10), (7, mkRat 47 10), (8, mkRat 42 10), (9, mkRat 37 10)]),
    (34, [(3, mkRat 83 10), (4, mkRat 76 10), (5, mkRat 69 10), (6, mkRat 62 10), (7, mkRat 56 10), (8, mkRat 51 10), (9, mkRat 46 10)]),
    (35, [(3, mkRat 93 10), (4, mkRat 86 10), (5, mkRat 78 10), (6, mkRat 72 10), (7, mkRat 65 10), (8, 6), (9, mkRat 54 10)]) ]

/-- Helper for the constant rows of the 200 series L table. -/
def l_row_200_94 : List (ℤ × ℚ) :=
  [(3, 0), (4, 0), (5, 0), (6, 0), (7, 0), (8, mkRat 3 10), (9, mkRat 13 10)]

/-- Default L table of `SaliceSilentia200_94Series.__init__` (src/hinges.py):
the same row for every thickness 19..35. -/
def l_table_200_94 : List (ℤ × List (ℤ × ℚ)) :=
  [ (19, l_row_200_94), (20, l_row_200_94), (21, l_row_200_94), (22, l_row_200_94),
    (23, l_row_200_94), (24, l_row_200_94), (25, l_row_200_94), (26, l_row_200_94),
    (27, l_row_200_94), (28, l_row_200_94), (29, l_row_200_94), (30, l_row_200_94),
    (31, l_row_200_94), (32, l_row_200_94), (33, l_row_200_94), (34, l_row_200_94),
    (35, l_row_200_94) ]

/-- Default `BoringTables` of the 200-94 series, `c_offset = 23.0`. -/
def tables_200_94 : BoringTables :=
  { a_table := a_table_200_94, l_table := l_table_200_94, c_offset := 23 }

/-- Default hinge-count curve shared by both bundled series. -/
def default_curve : List (ℚ × ℤ) :=
  [(1000, 2), (1500, 3), (2200, 4), (2800, 5)]

/-- The two concrete series classes registered by src/hinges.py. The Python
registry stores classes, not instances. -/
inductive SeriesClass where
  | silentia100
  | silentia200_94
deriving DecidableEq

/-- Instantiation of a series class with default constructor arguments:
`SaliceSilentia100Series()` and `SaliceSilentia200_94Series()`, each falling
back to its default tables and default curve. -/
def mkSeries : SeriesClass → HingeSeriesBase
  | SeriesClass.silentia100 =>
    { code := "salice_silentia_100",
      display_name := "Salice Silentia+ 100 series 105 degree opening angle",
      opening_angle_deg := 105,
      min_door_thickness_mm := 15,
      max_door_thickness_mm := some 20,
      min_k_mm := 3,
      max_k_mm := 6,
      cup_diameter_mm := 35,
      cup_depth_mm := 12,
      tables := tables_100,
      hinge_count_by_height := some default_curve }
  | SeriesClass.silentia200_94 =>
    { code := "salice_silentia_200_94",
      display_name := "Salice Silentia+ 200 series 94 degree opening angle",
      opening_angle_deg := 94,
      min_door_thickness_mm := 19,
      max_door_thickness_mm := some 35,
      min_k_mm := 3,
      max_k_mm := 9,
      cup_diameter_mm := 35,
      cup_depth_mm := mkRat 155 10,
      tables := tables_200_94,
      hinge_count_by_height := some default_curve }

/-- Model of Python `str.lower()` on the character list (the registry keys
are ASCII, where `Char.toLower` agrees with Python). -/
def py_lower (s : String) : String :=
  String.mk (s.data.map Char.toLower)

/-- Model of Python `str.strip()`: drop whitespace from both ends. -/
def py_strip (s : String) : String :=
  String.mk (((s.data.dropWhile Char.isWhitespace).reverse.dropWhile
    Char.isWhitespace).reverse)

/-- Key normalization applied by the registry: `key.lower().strip()`. -/
def normalize_key (key : String) : String :=
  py_strip (py_lower key)

/-- Python dict assignment `d[k] = v` on an association list: replace in
place on an existing key, else append. -/
def dict_insert (d : List (String × SeriesClass)) (k : String) (v : SeriesClass) :
    List (String × SeriesClass) :=
  match d with
  | [] => [(k, v)]
  | (k0, v0) :: rest =>
    if k0 = k then (k, v) :: rest else (k0, v0) :: dict_insert rest k v

/-- Embedding of `register_hinge_series`: normalize the key, then store the
class under it. -/
def register_hinge_series (d : List (String × SeriesClass)) (key : String)
    (cls : SeriesClass) : List (String × SeriesClass) :=
  dict_insert d (normalize_key key) cls

/-- Embedding of `HINGE_SERIES_REGISTRY` after the module-level registrations
`register_hinge_series("100", ...)` and `register_hinge_series("200-94", ...)`
in src/hinges.py: these are the only registration calls in the repository. -/
def HINGE_SERIES_REGISTRY : List (String × SeriesClass) :=
  register_hinge_series
    (register_hinge_series [] "100" SeriesClass.silentia100)
    "200-94" SeriesClass.silentia200_94

/-- Embedding of `get_hinge_series` with default construction arguments:
`none` models the ValueError on an unknown key. -/
def get_hinge_series (key : String) : Option HingeSeriesBase :=
  match HINGE_SERIES_REGISTRY.lookup (normalize_key key) with
  | none => none
  | some cls => some (mkSeries cls)

/-- Embedding of `_range_mid`: the series minimum thickness when the
maximum is `None`, else the midpoint `0.5 * (min + max)`. -/
def range_mid (s : HingeSeriesBase) : ℚ :=
  match s.max_door_thickness_mm with
  | none => s.min_door_thickness_mm
  | some m => (mkRat 1 2 : ℚ) * (s.min_door_thickness_mm + m)

/-- Ranking key of the selector: `abs(_range_mid(s) - thickness_mm)`. -/
def selection_key (thickness_mm : ℚ) (s : HingeSeriesBase) : ℚ :=
  |range_mid s - thickness_mm|

/-- Candidate list built by `select_hinge_series_for_thickness`: every
registered class instantiated with defaults, filtered by thickness support
and by the optional minimum opening angle. -/
def selection_candidates (thickness_mm : ℚ)
    (required_opening_angle_deg : Option ℚ) : List HingeSeriesBase :=
  (HINGE_SERIES_REGISTRY.map (fun p => mkSeries p.2)).filter (fun series =>
    supports_thickness series thickness_mm &&
      (match required_opening_angle_deg with
       | none => true
       | some a => decide (a ≤ series.opening_angle_deg)))

/-- Model of Python `min(candidates, key=f)`: `none` on the empty list
(the source raises before calling `min` in that case), else the first
element attaining the minimal key (Python `min` replaces the running best
only on a strictly smaller key). -/
def pyMin {α : Type} (l : List α) (f : α → ℚ) : Option α :=
  match l with
  | [] => none
  | hd :: tl => some (tl.foldl (fun best x => if f x < f best then x else best) hd)

/-- Embedding of `select_hinge_series_for_thickness`: `none` models the
ValueError raised when no candidate survives filtering. -/
def select_hinge_series_for_thickness (thickness_mm : ℚ)
    (required_opening_angle_deg : Option ℚ) : Option HingeSeriesBase :=
  pyMin (selection_candidates thickness_mm required_opening_angle_deg)
    (selection_key thickness_mm)

/-- Predicate picking out the missing-table-entry warning among the four
warning kinds. -/
def is_missing_warning : Warning → Bool
  | Warning.missingEntry _ _ => true
  | _ => false

/-- Characterization of `supports_thickness` as a proposition. -/
lemma supports_thickness_iff (s : HingeSeriesBase) (t : ℚ) :
    supports_thickness s t = true ↔
      (s.min_door_thickness_mm ≤ t ∧
        ∀ m, s.max_door_thickness_mm = some m → t ≤ m) := by
  unfold supports_thickness
  rcases hm : s.max_door_thickness_mm with _ | m <;> simp [hm]

/-- The thickness-validation step never emits a missing-entry warning. -/
lemma countP_thickness_warnings (series : HingeSeriesBase) (door : DoorSpec) :
    (thickness_warnings series door).countP is_missing_warning = 0 := by
  unfold thickness_warnings
  split <;> simp [is_missing_warning]

/-- The K-resolution step never emits a missing-entry warning. -/
lemma countP_resolve_k (series : HingeSeriesBase) (door : DoorSpec) :
    ((resolve_k series door).2).countP is_missing_warning = 0 := by
  unfold resolve_k
  rcases door.desired_k_mm with _ | dk
  · simp [is_missing_warning]
  · dsimp only
    split <;> simp [is_missing_warning]

/-- Characterization of a successful run of `calculate_boring`: the shape of
the result record, the returned door spec, and how the height was resolved. -/
lemma calculate_boring_char (series : HingeSeriesBase) (door : DoorSpec)
    (r : BoringResult) (d' : DoorSpec)
    (hcalc : calculate_boring series door = some (r, d')) :
    r = { series_code := series.code, thickness_mm := door.thickness_mm,
          height_mm := r.height_mm, k_mm := (resolve_k series door).1,
          a_mm := get_a series.tables (pyRound door.thickness_mm)
            (pyRound (resolve_k series door).1),
          l_mm := get_l series.tables (pyRound door.thickness_mm)
            (pyRound (resolve_k series door).1),
          c_mm := get_c series.tables (pyRound door.thickness_mm)
            (pyRound (resolve_k series door).1),
          recommended_hinge_count :=
            recommend_hinge_count series r.height_mm door.weight_kg,
          warnings := (thickness_warnings series door ++ (resolve_k series door).2) ++
            (if (get_a series.tables (pyRound door.thickness_mm)
                  (pyRound (resolve_k series door).1)).isNone ||
                (get_l series.tables (pyRound door.thickness_mm)
                  (pyRound (resolve_k series door).1)).isNone
             then [Warning.missingEntry (pyRound door.thickness_mm)
                    (pyRound (resolve_k series door).1)]
             else []) } ∧
    d' = { door with height_mm := some r.height_mm } ∧
    (door.height_mm = some r.height_mm ∨
      (door.height_mm = none ∧ ∃ hd tl,
        series.hinge_count_by_height = some (hd :: tl) ∧
        r.height_mm = min_threshold hd tl)) := by
  rcases hh : door.height_mm with _ | h
  · rcases hcurve : series.hinge_count_by_height with _ | curve
    · simp [calculate_boring, hh, hcurve] at hcalc
    · rcases curve with _ | ⟨hd, tl⟩
      · simp [calculate_boring, hh, hcurve] at hcalc
      · simp only [calculate_boring, hh, hcurve, Option.some.injEq, Prod.mk.injEq] at hcalc
        obtain ⟨hr, hd'⟩ := hcalc
        subst hr
        subst hd'
        refine ⟨rfl, ?_, Or.inr ⟨rfl, hd, tl, rfl, rfl⟩⟩
        rcases door with ⟨t, hm, w, k⟩
        simp
  · simp only [calculate_boring, hh, Option.some.injEq, Prod.mk.injEq] at hcalc
    obtain ⟨hr, hd'⟩ := hcalc
    subst hr
    subst hd'
    refine ⟨rfl, ?_, Or.inl rfl⟩
    rcases door with ⟨t, hm, w, k⟩
    simp at hh
    simp [hh]

/-- The scan loop of `recommend_hinge_count` is `List.find?` on the
admitting-bracket predicate, projected to the count. -/
lemma find_count_eq (l : List (ℚ × ℤ)) (h : ℚ) :
    find_count l h = (l.find? (fun p => decide (h ≤ p.1))).map Prod.snd := by
  induction l with
  | nil => rfl
  | cons hd tl ih =>
    rcases hd with ⟨mh, c⟩
    by_cases hle : h ≤ mh
    · simp [find_count, List.find?_cons, hle]
    · simp [find_count, List.find?_cons, hle, ih]

/-- A left fold of `min` lands on a member of the accumulator-extended list. -/
lemma foldl_min_mem (l : List ℚ) : ∀ a : ℚ, l.foldl min a ∈ a :: l := by
  induction l with
  | nil => intro a; simp
  | cons b tl ih =>
    intro a
    have hmem := ih (min a b)
    rcases min_choice a b with h | h <;>
      simp only [List.foldl_cons] <;> rw [h] at hmem ⊢ <;>
      simpa using List.mem_cons.mp hmem |>.elim (fun he => by simp [he]) (fun ht => by simp [ht])

/-- A left fold of `min` is a lower bound of the accumulator-extended list. -/
lemma foldl_min_le (l : List ℚ) : ∀ (a : ℚ) (x : ℚ), x ∈ a :: l → l.foldl min a ≤ x := by
  induction l with
  | nil =>
    intro a x hx
    simp at hx
    simp [hx]
  | cons b tl ih =>
    intro a x hx
    simp only [List.foldl_cons]
    have hacc : tl.foldl min (min a b) ≤ min a b := ih (min a b) (min a b) (by simp)
    rcases List.mem_cons.mp hx with rfl | hx1
    · exact le_trans hacc (min_le_left _ _)
    · rcases List.mem_cons.mp hx1 with rfl | hx2
      · exact le_trans hacc (min_le_right _ _)
      · exact ih (min a b) x (by simp [hx2])

/-- Python `min(..., key=f)` as a fold: the result either is the starting
accumulator and minimal, or sits in the list strictly below the accumulator,
strictly below everything before it and at most everything after it. -/
lemma foldl_pick_spec {α : Type} (f : α → ℚ) :
    ∀ (tl : List α) (best : α),
    ∃ r, tl.foldl (fun b x => if f x < f b then x else b) best = r ∧
      ((r = best ∧ ∀ y ∈ tl, f best ≤ f y) ∨
       (∃ t1 t2, tl = t1 ++ r :: t2 ∧ f r < f best ∧
         (∀ y ∈ t1, f r < f y) ∧ (∀ y ∈ t2, f r ≤ f y))) := by
  intro tl
  induction tl with
  | nil => intro best; exact ⟨best, rfl, Or.inl ⟨rfl, by simp⟩⟩
  | cons x rest ih =>
    intro best
    by_cases hx : f x < f best
    · obtain ⟨r, hr, hcase⟩ := ih x
      refine ⟨r, by simpa [hx] using hr, Or.inr ?_⟩
      rcases hcase with ⟨rfl, hall⟩ | ⟨t1, t2, heq, hlt, h1, h2⟩
      · exact ⟨[], rest, rfl, hx, by simp, hall⟩
      · refine ⟨x :: t1, t2, by simp [heq], lt_trans hlt hx, ?_, h2⟩
        intro y hy
        rcases List.mem_cons.mp hy with rfl | hy1
        · exact hlt
        · exact h1 y hy1
    · obtain ⟨r, hr, hcase⟩ := ih best
      refine ⟨r, by simpa [hx] using hr, ?_⟩
      rcases hcase with ⟨rfl, hall⟩ | ⟨t1, t2, heq, hlt, h1, h2⟩
      · refine Or.inl ⟨rfl, ?_⟩
        intro y hy
        rcases List.mem_cons.mp hy with rfl | hy1
        · exact le_of_not_lt hx
        · exact hall y hy1
      · refine Or.inr ⟨x :: t1, t2, by simp [heq], hlt, ?_, h2⟩
        intro y hy
        rcases List.mem_cons.mp hy with rfl | hy1
        · exact lt_of_lt_of_le hlt (le_of_not_lt hx)
        · exact h1 y hy1

/-- Specification of `pyMin`: a returned element splits the list so that it
is strictly below every earlier element (first-wins tie-breaking) and at
most every later element. -/
lemma pyMin_spec {α : Type} (l : List α) (f : α → ℚ) (x : α)
    (h : pyMin l f = some x) :
    ∃ l1 l2, l = l1 ++ x :: l2 ∧ (∀ y ∈ l1, f x < f y) ∧ (∀ y ∈ l2, f x ≤ f y) := by
  rcases l with _ | ⟨hd, tl⟩
  · simp [pyMin] at h
  · simp only [pyMin, Option.some.injEq] at h
    obtain ⟨r, hr, hcase⟩ := foldl_pick_spec f tl hd
    rw [hr] at h
    subst h
    rcases hcase with ⟨rfl, hall⟩ | ⟨t1, t2, heq, hlt, h1, h2⟩
    · exact ⟨[], tl, rfl, by simp, hall⟩
    · refine ⟨hd :: t1, t2, by simp [heq], ?_, h2⟩
      intro y hy
      rcases List.mem_cons.mp hy with rfl | hy1
      · exact hlt
      · exact h1 y hy1

/-- The fold computing `min(h for (h, _) in curve)` is a member of the
thresholds of the curve. -/
lemma min_threshold_mem (hd : ℚ × ℤ) (tl : List (ℚ × ℤ)) :
    min_threshold hd tl ∈ (hd :: tl).map Prod.fst := by
  have heq : min_threshold hd tl = (tl.map Prod.fst).foldl min hd.1 := by
    unfold min_threshold
    rw [List.foldl_map]
  rw [heq]
  simpa using foldl_min_mem (tl.map Prod.fst) hd.1

/-- The fold computing `min(h for (h, _) in curve)` is a lower bound of the
thresholds of the curve. -/
lemma min_threshold_le (hd : ℚ × ℤ) (tl : List (ℚ × ℤ)) :
    ∀ x ∈ (hd :: tl).map Prod.fst, min_threshold hd tl ≤ x := by
  have heq : min_threshold hd tl = (tl.map Prod.fst).foldl min hd.1 := by
    unfold min_threshold
    rw [List.foldl_map]
  intro x hx
  rw [heq]
  exact foldl_min_le (tl.map Prod.fst) hd.1 x (by simpa using hx)

/-- Rebuilding a `DoorSpec` with the height it already carries is the
identity. -/
lemma doorspec_update_height (door : DoorSpec) (h : ℚ)
    (hsome : door.height_mm = some h) :
    ({ door with height_mm := some h } : DoorSpec) = door := by
  rcases door with ⟨t, hm, w, k⟩
  simp_all

/-- Characterization of `recommend_hinge_count` on a non-empty curve as a
`List.find?` with a last-entry fallback. -/
lemma recommend_eq_find (s : HingeSeriesBase) (h : ℚ) (w : Option ℚ)
    (hd : ℚ × ℤ) (tl : List (ℚ × ℤ))
    (hc : s.hinge_count_by_height = some (hd :: tl)) :
    recommend_hinge_count s h w =
      some (match (hd :: tl).find? (fun p => decide (h ≤ p.1)) with
            | some p => p.2
            | none => ((hd :: tl).getLast (List.cons_ne_nil hd tl)).2) := by
  unfold recommend_hinge_count
  rw [hc]
  dsimp only
  rw [find_count_eq]
  rcases hfind : (hd :: tl).find? (fun p => decide (h ≤ p.1)) with _ | p <;>
    rw [hfind] <;> rfl

/-- Claim C2 (amended): `supports_thickness` is true exactly when the
thickness is at least the configured minimum and at most the configured
maximum when one is set, inclusive at both bounds; for the
default-constructed 100 series (bounds 15.0mm and 20.0mm) it is true at
15.0mm and 20.0mm and false at 14.9mm, 13.9mm and 20.1mm. -/
theorem claim_C2 (s : HingeSeriesBase) (t : ℚ) :
    (supports_thickness s t = true ↔
      (s.min_door_thickness_mm ≤ t ∧
        ∀ m, s.max_door_thickness_mm = some m → t ≤ m)) ∧
    supports_thickness (mkSeries SeriesClass.silentia100) 15 = true ∧
    supports_thickness (mkSeries SeriesClass.silentia100) 20 = true ∧
    supports_thickness (mkSeries SeriesClass.silentia100) (mkRat 149 10) = false ∧
    supports_thickness (mkSeries SeriesClass.silentia100) (mkRat 139 10) = false ∧
    supports_thickness (mkSeries SeriesClass.silentia100) (mkRat 201 10) = false :=
  ⟨supports_thickness_iff s t, by decide, by decide, by decide, by decide, by decide⟩

/-- Claim C2 counterexample: the claim asserts the default 100 series
supports 14.0mm, but its configured minimum thickness is 15.0mm and
`supports_thickness` is false at 14.0mm. -/
theorem claim_C2_counterexample :
    supports_thickness (mkSeries SeriesClass.silentia100) 14 = false ∧
    (mkSeries SeriesClass.silentia100).min_door_thickness_mm = 15 := by
  exact ⟨by decide, by decide⟩

/-- Claim C2 witness: the characterization applied at the default 100
series and 16mm. -/
theorem claim_C2_witness :
    supports_thickness (mkSeries SeriesClass.silentia100) 16 = true := by
  refine ((claim_C2 (mkSeries SeriesClass.silentia100) 16).1).mpr ⟨by decide, ?_⟩
  intro m hm
  have hmax : (mkSeries SeriesClass.silentia100).max_door_thickness_mm = some 20 := rfl
  rw [hmax] at hm
  injection hm with hm1
  rw [← hm1]
  norm_num

/-- Claim C3 (amended): resolving a series by key succeeds for the short
numeric aliases "100" and "200-94", the only keys registered at startup,
yielding instances of the corresponding classes whose `code` fields are the
canonical codes; the canonical codes themselves are not registry keys. -/
theorem claim_C3 :
    get_hinge_series "100" = some (mkSeries SeriesClass.silentia100) ∧
    get_hinge_series "200-94" = some (mkSeries SeriesClass.silentia200_94) ∧
    (mkSeries SeriesClass.silentia100).code = "salice_silentia_100" ∧
    (mkSeries SeriesClass.silentia200_94).code = "salice_silentia_200_94" ∧
    HINGE_SERIES_REGISTRY.map Prod.fst = ["100", "200-94"] :=
  ⟨rfl, rfl, rfl, rfl, rfl⟩

/-- Claim C3 counterexample: resolving the canonical codes fails, because
only the short aliases were ever registered. -/
theorem claim_C3_counterexample :
    get_hinge_series "salice_silentia_100" = none ∧
    get_hinge_series "salice_silentia_200_94" = none :=
  ⟨rfl, rfl⟩

/-- Claim C4: `recommend_hinge_count` ignores the weight, returns `none`
when no curve is configured (absent or empty), and otherwise returns the
count of the first entry whose threshold admits the height, falling back to
the last entry's count; the 100 series curve gives 2, 2, 3, 5 at heights
900, 1000, 1500, 3000. -/
theorem claim_C4 (s : HingeSeriesBase) (h : ℚ) (w w' : Option ℚ) :
    recommend_hinge_count s h w = recommend_hinge_count s h w' ∧
    ((s.hinge_count_by_height = none ∨ s.hinge_count_by_height = some []) →
      recommend_hinge_count s h w = none) ∧
    (∀ (curve : List (ℚ × ℤ)) (hne : curve ≠ []),
      s.hinge_count_by_height = some curve →
      recommend_hinge_count s h w =
        some (match curve.find? (fun p => decide (h ≤ p.1)) with
              | some p => p.2
              | none => (curve.getLast hne).2)) ∧
    recommend_hinge_count (mkSeries SeriesClass.silentia100) 900 none = some 2 ∧
    recommend_hinge_count (mkSeries SeriesClass.silentia100) 1000 none = some 2 ∧
    recommend_hinge_count (mkSeries SeriesClass.silentia100) 1500 none = some 3 ∧
    recommend_hinge_count (mkSeries SeriesClass.silentia100) 3000 none = some 5 := by
  refine ⟨rfl, ?_, ?_, by decide, by decide, by decide, by decide⟩
  · rintro (hc | hc) <;> simp [recommend_hinge_count, hc]
  · rintro curve hne hc
    rcases curve with _ | ⟨hd, tl⟩
    · exact absurd rfl hne
    · exact recommend_eq_find s h w hd tl hc

/-- Claim C4 witness: the bracket characterization applied at the default
100 series, height 900, with an arbitrary supplied weight. -/
theorem claim_C4_witness :
    recommend_hinge_count (mkSeries SeriesClass.silentia100) 900 (some 12) = some 2 := by
  have hchar := (claim_C4 (mkSeries SeriesClass.silentia100) 900 (some 12) none).2.2.1
    default_curve (by decide) rfl
  simpa using hchar

/-- Claim C5: `get_c` equals `c_offset + k + get_a` whenever A is found and
is `none` otherwise, independently of the L table; for the 100 series at
T=18, K=4: A=1.3, `c_offset`=20.5 and C=25.8. -/
theorem claim_C5 (t : BoringTables) (thickness k : ℤ) :
    (∀ a : ℚ, get_a t thickness k = some a →
      get_c t thickness k = some (t.c_offset + (k : ℚ) + a)) ∧
    (get_a t thickness k = none → get_c t thickness k = none) ∧
    (∀ ltab, get_c { t with l_table := ltab } thickness k = get_c t thickness k) ∧
    get_a tables_100 18 4 = some (mkRat 13 10) ∧
    tables_100.c_offset = mkRat 205 10 ∧
    get_c tables_100 18 4 = some (mkRat 258 10) := by
  refine ⟨?_, ?_, fun ltab => rfl, by decide, by decide, ?_⟩
  · intro a ha
    simp [get_c, ha]
  · intro ha
    simp [get_c, ha]
  · have ha : get_a tables_100 18 4 = some (mkRat 13 10) := by decide
    have hoff : tables_100.c_offset = mkRat 205 10 := by decide
    simp only [get_c, ha, hoff]
    norm_num [Rat.mkRat_eq_divInt, Rat.divInt_eq_div]

/-- Claim C5 witness: the derivation applied to the concrete 100 series
table at T=18, K=4. -/
theorem claim_C5_witness :
    get_c tables_100 18 4 = some (tables_100.c_offset + ((4 : ℤ) : ℚ) + mkRat 13 10) :=
  (claim_C5 tables_100 18 4).1 (mkRat 13 10) (by decide)

/-- Claim C1 (amended): `calculate_boring` returns a result without raising
whenever the door height is set or the series' height-count curve is present
and non-empty; every irregular input on that domain (out-of-range thickness,
clamped or missing K, missing table entry) degrades to warnings. When the
height is unset and the curve is absent or empty, the call raises instead of
degrading to a warning. -/
theorem claim_C1 (series : HingeSeriesBase) (door : DoorSpec)
    (h : door.height_mm ≠ none ∨
      ∃ hd tl, series.hinge_count_by_height = some (hd :: tl)) :
    (calculate_boring series door).isSome = true := by
  rcases hh : door.height_mm with _ | h0
  · rcases h with hne | ⟨hd, tl, hcurve⟩
    · exact absurd hh hne
    · simp [calculate_boring, hh, hcurve]
  · simp [calculate_boring, hh]

/-- Claim C1 counterexample: with the height unset and the height-count
curve absent (or empty), `calculate_boring` raises — modelled as `none` —
instead of degrading to a warning, even for an otherwise regular door. -/
theorem claim_C1_counterexample :
    calculate_boring { mkSeries SeriesClass.silentia100 with
        hinge_count_by_height := none }
      { thickness_mm := 18 } = none ∧
    calculate_boring { mkSeries SeriesClass.silentia100 with
        hinge_count_by_height := some [] }
      { thickness_mm := 18 } = none :=
  ⟨rfl, rfl⟩

/-- Claim C1 witness: a door with irregular thickness and K still yields a
result on the default 100 series, whose curve is non-empty. -/
theorem claim_C1_witness :
    (calculate_boring (mkSeries SeriesClass.silentia100)
      { thickness_mm := 55, desired_k_mm := some 100 }).isSome = true :=
  claim_C1 (mkSeries SeriesClass.silentia100)
    { thickness_mm := 55, desired_k_mm := some 100 }
    (Or.inr ⟨(1000, 2), [(1500, 3), (2200, 4), (2800, 5)], rfl⟩)

/-- Claim C6: when the door height is unset and the series has a non-empty
curve, `calculate_boring` back-fills the door spec in place with the
minimum threshold of the curve (changing no other field) and reports that
height in the result; a caller-supplied height is left unchanged and
echoed. -/
theorem claim_C6 (series : HingeSeriesBase) (door : DoorSpec)
    (hd : ℚ × ℤ) (tl : List (ℚ × ℤ))
    (hcurve : series.hinge_count_by_height = some (hd :: tl)) :
    (door.height_mm = none →
      ∃ r, calculate_boring series door =
          some (r, { door with height_mm := some (min_threshold hd tl) }) ∧
        r.height_mm = min_threshold hd tl) ∧
    (∀ h0 : ℚ, door.height_mm = some h0 →
      ∃ r, calculate_boring series door = some (r, door) ∧ r.height_mm = h0) ∧
    min_threshold hd tl ∈ (hd :: tl).map Prod.fst ∧
    (∀ x ∈ (hd :: tl).map Prod.fst, min_threshold hd tl ≤ x) := by
  refine ⟨?_, ?_, min_threshold_mem hd tl, min_threshold_le hd tl⟩
  · intro hnone
    rcases hres : calculate_boring series door with _ | ⟨r, d2⟩
    · simp [calculate_boring, hnone, hcurve] at hres
    · obtain ⟨hr, hd2, hheight⟩ := calculate_boring_char series door r d2 hres
      rcases hheight with hcase | ⟨_, hd1, tl1, hcurve1, hmin⟩
      · rw [hnone] at hcase
        cases hcase
      · rw [hcurve] at hcurve1
        injection hcurve1 with he
        injection he with he1 he2
        subst he1
        subst he2
        refine ⟨r, ?_, hmin⟩
        rw [hd2, hmin]
  · intro h0 hsome
    rcases hres : calculate_boring series door with _ | ⟨r, d2⟩
    · simp [calculate_boring, hsome] at hres
    · obtain ⟨hr, hd2, hheight⟩ := calculate_boring_char series door r d2 hres
      rcases hheight with hcase | ⟨hnone1, _⟩
      · rw [hsome] at hcase
        injection hcase with he
        refine ⟨r, ?_, he.symm⟩
        rw [hd2, ← he, doorspec_update_height door h0 hsome]
      · rw [hsome] at hnone1
        cases hnone1

/-- Claim C6 witness: on the default 100 series with no height given, the
door is back-filled with the minimum curve threshold. -/
theorem claim_C6_witness :
    ∃ r, calculate_boring (mkSeries SeriesClass.silentia100)
        { thickness_mm := 18 } =
      some (r, { ({ thickness_mm := 18 } : DoorSpec) with
        height_mm := some (min_threshold (1000, 2)
          [(1500, 3), (2200, 4), (2800, 5)]) }) ∧
      r.height_mm = min_threshold (1000, 2) [(1500, 3), (2200, 4), (2800, 5)] :=
  (claim_C6 (mkSeries SeriesClass.silentia100) { thickness_mm := 18 }
    (1000, 2) [(1500, 3), (2200, 4), (2800, 5)] rfl).1 rfl

/-- Claim C7: the result's A/L/C fields are exactly the table lookups at the
rounded (T, K) pair; when A or L is absent exactly one missing-entry warning
naming that pair is appended and no value is synthesized; when both are
found no such warning is emitted. -/
theorem claim_C7 (series : HingeSeriesBase) (door : DoorSpec)
    (r : BoringResult) (d' : DoorSpec)
    (hcalc : calculate_boring series door = some (r, d')) :
    r.a_mm = get_a series.tables (pyRound door.thickness_mm)
      (pyRound (resolve_k series door).1) ∧
    r.l_mm = get_l series.tables (pyRound door.thickness_mm)
      (pyRound (resolve_k series door).1) ∧
    r.c_mm = get_c series.tables (pyRound door.thickness_mm)
      (pyRound (resolve_k series door).1) ∧
    ((get_a series.tables (pyRound door.thickness_mm)
        (pyRound (resolve_k series door).1) = none ∨
      get_l series.tables (pyRound door.thickness_mm)
        (pyRound (resolve_k series door).1) = none) →
      r.warnings.countP is_missing_warning = 1 ∧
      Warning.missingEntry (pyRound door.thickness_mm)
        (pyRound (resolve_k series door).1) ∈ r.warnings) ∧
    ((get_a series.tables (pyRound door.thickness_mm)
        (pyRound (resolve_k series door).1)).isSome ∧
     (get_l series.tables (pyRound door.thickness_mm)
        (pyRound (resolve_k series door).1)).isSome →
      r.warnings.countP is_missing_warning = 0) := by
  obtain ⟨hr, _, _⟩ := calculate_boring_char series door r d' hcalc
  rw [hr]
  refine ⟨rfl, rfl, rfl, ?_, ?_⟩
  · intro hmiss
    have hcond : ((get_a series.tables (pyRound door.thickness_mm)
        (pyRound (resolve_k series door).1)).isNone ||
        (get_l series.tables (pyRound door.thickness_mm)
          (pyRound (resolve_k series door).1)).isNone) = true := by
      rcases hmiss with hm | hm <;> simp [hm]
    simp only [hcond, if_pos]
    constructor
    · simp [List.countP_append, countP_thickness_warnings,
        countP_resolve_k, List.countP_cons, is_missing_warning]
    · simp
  · intro hfound
    have hcond : ((get_a series.tables (pyRound door.thickness_mm)
        (pyRound (resolve_k series door).1)).isNone ||
        (get_l series.tables (pyRound door.thickness_mm)
          (pyRound (resolve_k series door).1)).isNone) = false := by
      rcases hfound with ⟨ha, hl⟩
      rcases Option.isSome_iff_exists.mp ha with ⟨av, hav⟩
      rcases Option.isSome_iff_exists.mp hl with ⟨lv, hlv⟩
      rw [hav, hlv]
      rfl
    simp only [hcond]
    simp [List.countP_append, countP_thickness_warnings, countP_resolve_k]

/-- Claim C7 witness: a (T, K) pair outside the 100 series table produces
exactly one missing-entry warning naming the rounded pair. -/
theorem claim_C7_witness :
    ∃ r d', calculate_boring (mkSeries SeriesClass.silentia100)
        { thickness_mm := 14, height_mm := some 1000 } = some (r, d') ∧
      r.warnings.countP is_missing_warning = 1 ∧
      Warning.missingEntry 14 3 ∈ r.warnings := by
  rcases hres : calculate_boring (mkSeries SeriesClass.silentia100)
      { thickness_mm := 14, height_mm := some 1000 } with _ | p
  · exact absurd hres (by decide)
  · have h7 := claim_C7 (mkSeries SeriesClass.silentia100)
      { thickness_mm := 14, height_mm := some 1000 } p.1 p.2 (by rw [hres])
    refine ⟨p.1, p.2, rfl, ?_, ?_⟩
    · exact (h7.2.2.2.1 (by decide)).1
    · have hm := (h7.2.2.2.1 (by decide)).2
      have he : pyRound (14 : ℚ) = 14 := by decide
      have he2 : pyRound (resolve_k (mkSeries SeriesClass.silentia100)
          { thickness_mm := 14, height_mm := some 1000 }).1 = 3 := by decide
      rw [he, he2] at hm
      exact hm

/-- Claim C9: running `calculate_boring` again on the door spec returned by
a first run (after its documented height back-fill) yields the same result
record and the same door spec; determinism of a single run is inherent to
the embedding, which is a pure function. -/
theorem claim_C9 (series : HingeSeriesBase) (door : DoorSpec)
    (r : BoringResult) (d' : DoorSpec)
    (hcalc : calculate_boring series door = some (r, d')) :
    calculate_boring series d' = some (r, d') := by
  obtain ⟨hr, hd', _⟩ := calculate_boring_char series door r d' hcalc
  subst hd'
  rw [hr]
  rfl

/-- Claim C9 witness: on the default 100 series with no height given, the
second run on the back-filled door reproduces the first result. -/
theorem claim_C9_witness :
    ∃ r d', calculate_boring (mkSeries SeriesClass.silentia100)
        { thickness_mm := 18 } = some (r, d') ∧
      calculate_boring (mkSeries SeriesClass.silentia100) d' = some (r, d') := by
  rcases hres : calculate_boring (mkSeries SeriesClass.silentia100)
      { thickness_mm := 18 } with _ | p
  · exact absurd hres (by decide)
  · exact ⟨p.1, p.2, rfl, claim_C9 (mkSeries SeriesClass.silentia100)
      { thickness_mm := 18 } p.1 p.2 (by rw [hres])⟩

/-- A successful run whose rounded (T, K) pair hits populated A and L table
entries carries no missing-entry warning. -/
lemma countP_missing_zero (series : HingeSeriesBase) (door : DoorSpec)
    (r : BoringResult) (d' : DoorSpec)
    (hcalc : calculate_boring series door = some (r, d'))
    (ha : (get_a series.tables (pyRound door.thickness_mm)
      (pyRound (resolve_k series door).1)).isSome = true)
    (hl : (get_l series.tables (pyRound door.thickness_mm)
      (pyRound (resolve_k series door).1)).isSome = true) :
    r.warnings.countP is_missing_warning = 0 := by
  obtain ⟨hr, _, _⟩ := calculate_boring_char series door r d' hcalc
  rw [hr]
  have hcond : ((get_a series.tables (pyRound door.thickness_mm)
      (pyRound (resolve_k series door).1)).isNone ||
      (get_l series.tables (pyRound door.thickness_mm)
        (pyRound (resolve_k series door).1)).isNone) = false := by
    rcases Option.isSome_iff_exists.mp ha with ⟨av, hav⟩
    rcases Option.isSome_iff_exists.mp hl with ⟨lv, hlv⟩
    rw [hav, hlv]
    rfl
  simp only [hcond]
  simp [List.countP_append, countP_thickness_warnings, countP_resolve_k]

/-- Claim C8: a selected series is a surviving candidate minimizing the
distance from the door thickness to the midpoint of its thickness range,
strictly beating every earlier candidate (first-wins tie-break); the
midpoint is the configured minimum when no maximum is set, else the mean;
and 18mm selects the 100 series, the 200-94 series being filtered out. -/
theorem claim_C8 (t : ℚ) (angle : Option ℚ) (s : HingeSeriesBase)
    (hsel : select_hinge_series_for_thickness t angle = some s) :
    (∃ l1 l2, selection_candidates t angle = l1 ++ s :: l2 ∧
      (∀ c ∈ l1, selection_key t s < selection_key t c) ∧
      (∀ c ∈ l2, selection_key t s ≤ selection_key t c)) ∧
    (∀ s2 : HingeSeriesBase, s2.max_door_thickness_mm = none →
      range_mid s2 = s2.min_door_thickness_mm) ∧
    (∀ (s2 : HingeSeriesBase) (m : ℚ), s2.max_door_thickness_mm = some m →
      range_mid s2 = (s2.min_door_thickness_mm + m) / 2) ∧
    select_hinge_series_for_thickness 18 none =
      some (mkSeries SeriesClass.silentia100) ∧
    supports_thickness (mkSeries SeriesClass.silentia200_94) 18 = false := by
  refine ⟨pyMin_spec _ _ _ hsel, ?_, ?_, by decide, by decide⟩
  · intro s2 hm
    simp [range_mid, hm]
  · intro s2 m hm
    simp only [range_mid, hm]
    rw [show (mkRat 1 2 : ℚ) = 1 / 2 by
      norm_num [Rat.mkRat_eq_divInt, Rat.divInt_eq_div]]
    ring

/-- Claim C8 witness: the minimality split applied to the concrete
selection at 18mm. -/
theorem claim_C8_witness :
    ∃ l1 l2, selection_candidates 18 none =
        l1 ++ (mkSeries SeriesClass.silentia100) :: l2 ∧
      (∀ c ∈ l1, selection_key 18 (mkSeries SeriesClass.silentia100) <
        selection_key 18 c) ∧
      (∀ c ∈ l2, selection_key 18 (mkSeries SeriesClass.silentia100) ≤
        selection_key 18 c) :=
  (claim_C8 18 none (mkSeries SeriesClass.silentia100) (by decide)).1

/-- Claim C10: both bundled series' default A and L tables are total over
the supported integer grid (thickness range times K range), and therefore a
calculation whose rounded thickness and rounded resolved K fall on that
grid emits no missing-entry warning. -/
theorem claim_C10 :
    (∀ T ∈ Finset.Icc (15 : ℤ) 20, ∀ K ∈ Finset.Icc (3 : ℤ) 6,
      (get_a tables_100 T K).isSome = true ∧
      (get_l tables_100 T K).isSome = true) ∧
    (∀ T ∈ Finset.Icc (19 : ℤ) 35, ∀ K ∈ Finset.Icc (3 : ℤ) 9,
      (get_a tables_200_94 T K).isSome = true ∧
      (get_l tables_200_94 T K).isSome = true) ∧
    (∀ (door : DoorSpec) (r : BoringResult) (d' : DoorSpec),
      calculate_boring (mkSeries SeriesClass.silentia100) door = some (r, d') →
      pyRound door.thickness_mm ∈ Finset.Icc (15 : ℤ) 20 →
      pyRound (resolve_k (mkSeries SeriesClass.silentia100) door).1 ∈
        Finset.Icc (3 : ℤ) 6 →
      r.warnings.countP is_missing_warning = 0) ∧
    (∀ (door : DoorSpec) (r : BoringResult) (d' : DoorSpec),
      calculate_boring (mkSeries SeriesClass.silentia200_94) door = some (r, d') →
      pyRound door.thickness_mm ∈ Finset.Icc (19 : ℤ) 35 →
      pyRound (resolve_k (mkSeries SeriesClass.silentia200_94) door).1 ∈
        Finset.Icc (3 : ℤ) 9 →
      r.warnings.countP is_missing_warning = 0) := by
  have h100 : ∀ T ∈ Finset.Icc (15 : ℤ) 20, ∀ K ∈ Finset.Icc (3 : ℤ) 6,
      (get_a tables_100 T K).isSome = true ∧
      (get_l tables_100 T K).isSome = true := by decide
  have h200 : ∀ T ∈ Finset.Icc (19 : ℤ) 35, ∀ K ∈ Finset.Icc (3 : ℤ) 9,
      (get_a tables_200_94 T K).isSome = true ∧
      (get_l tables_200_94 T K).isSome = true := by decide
  refine ⟨h100, h200, ?_, ?_⟩
  · intro door r d' hcalc hT hK
    exact countP_missing_zero _ _ _ _ hcalc
      ((h100 _ hT _ hK).1) ((h100 _ hT _ hK).2)
  · intro door r d' hcalc hT hK
    exact countP_missing_zero _ _ _ _ hcalc
      ((h200 _ hT _ hK).1) ((h200 _ hT _ hK).2)

/-- Claim C10 witness: an in-grid concrete run on the 100 series emits no
missing-entry warning. -/
theorem claim_C10_witness :
    (calculate_boring (mkSeries SeriesClass.silentia100)
        { thickness_mm := 18, height_mm := some 1200,
          desired_k_mm := some 4 }).map
      (fun p => p.1.warnings.countP is_missing_warning) = some 0 := by
  rcases hres : calculate_boring (mkSeries SeriesClass.silentia100)
      { thickness_mm := 18, height_mm := some 1200, desired_k_mm := some 4 }
    with _ | p
  · exact absurd hres (by decide)
  · have h0 := claim_C10.2.2.1
      { thickness_mm := 18, height_mm := some 1200, desired_k_mm := some 4 }
      p.1 p.2 (by rw [hres]) (by decide) (by decide)
    simp [h0]

end Salice
